import Mathlib

/-!
Shallow embedding of the census data pipeline of
zakirangwala/census-data-visualization.

The embedded code is `src/data_processor.py` (`clean_census_data` and its
helpers) together with the dashboard callbacks of `src/app.py`.  Pandas
dataframes are modelled as lists of records, cell values as `Option ℚ`
(`none` is NaN/missing), and the numpy random source as an explicit stream
of draws `Nat → ℚ` consumed in call order.  Stateful dataframe operations
are modelled by explicit state passing on the named-table collection.
-/

/- ===================== String machinery ===================== -/

/-- Whitespace characters of the regex class `\s` and of Python string
stripping, restricted to ASCII (space, tab, LF, CR, VT, FF). -/
def isSpaceChar (c : Char) : Bool :=
  c = ' ' || c = '\t' || c = '\n' || c = '\r' || c = '\x0b' || c = '\x0c'

/-- pandas `Series.str.strip` on one value: remove leading and trailing
whitespace (data_processor.py line 47). -/
def pyStrip (s : String) : String :=
  ⟨((s.data.dropWhile isSpaceChar).reverse.dropWhile isSpaceChar).reverse⟩

/-- re.sub of the pattern `\s*i\d+\s*$` with the empty string
(data_processor.py lines 36-37): if the string ends with optional
whitespace, the letter i, one or more digits and optional whitespace,
remove that suffix; otherwise leave the string unchanged.  Matching is
implemented from the end of the string: trailing whitespace, then the
digit run, then the literal i, then the whitespace run before it. -/
def stripFootnote (s : String) : String :=
  let rev := s.data.reverse
  let r1 := rev.dropWhile isSpaceChar
  let digs := r1.takeWhile Char.isDigit
  let r2 := r1.dropWhile Char.isDigit
  match digs, r2 with
  | [], _ => s
  | _ :: _, 'i' :: rest => ⟨(rest.dropWhile isSpaceChar).reverse⟩
  | _, _ => s

/-- re.sub of the pattern `\s*\d+\s*$` with the empty string
(data_processor.py lines 38-39): if the string ends with optional
whitespace, one or more digits and optional whitespace, remove that
suffix; otherwise leave the string unchanged. -/
def stripTrailingNum (s : String) : String :=
  let rev := s.data.reverse
  let r1 := rev.dropWhile isSpaceChar
  let digs := r1.takeWhile Char.isDigit
  match digs with
  | [] => s
  | _ :: _ => ⟨((r1.dropWhile Char.isDigit).dropWhile isSpaceChar).reverse⟩

/-- re.findall for the pattern `^\s*` without MULTILINE, as used by
`Series.str.count(r"^\s*")` (data_processor.py line 46).  The anchor `^`
matches only at position 0 and `\s*` may match the empty string, so
findall returns exactly one match: the maximal whitespace run at the
start of the string (possibly empty). -/
def findallStartWs (s : String) : List String :=
  [⟨s.data.takeWhile isSpaceChar⟩]

/-- Specification-side quantity (spec section 8): the number of leading
whitespace characters of a label.  The spec asserts that `level` equals
this count. -/
def specLeadingWsCount (s : String) : Nat :=
  (s.data.takeWhile isSpaceChar).length

/-- Value of a digit run, most significant digit first. -/
def digitsToNat (l : List Char) : Nat :=
  l.foldl (fun a c => 10 * a + (c.toNat - 48)) 0

/-- pandas `Series.str.replace(',', '')`: remove every comma
(data_processor.py line 43, the thousands separators). -/
def stripCommas (s : String) : String :=
  ⟨s.data.filter (fun c => c ≠ ',')⟩

/-- Numeric parse performed by `pd.to_numeric(..., errors='coerce')` on a
single token (data_processor.py lines 42-43): optional surrounding
whitespace, an optional sign, a decimal mantissa with at least one digit,
and an optional exponent.  A token that does not have this shape yields
`none` (the coerced NaN).  IEEE special tokens (inf/nan) are outside the
rational model. -/
def parseNumeral (s : String) : Option ℚ :=
  let l := s.data.dropWhile isSpaceChar
  let neg := l.head? = some '-'
  let l1 := if l.head? = some '-' ∨ l.head? = some '+' then l.tail else l
  let ip := l1.takeWhile Char.isDigit
  let l2 := l1.dropWhile Char.isDigit
  let fp := if l2.head? = some '.' then l2.tail.takeWhile Char.isDigit else []
  let l3 := if l2.head? = some '.' then l2.tail.dropWhile Char.isDigit else l2
  if ip = [] ∧ fp = [] then none
  else
    let mant : ℚ := (if neg then -1 else 1) * ((digitsToNat ip : ℚ) +
      (digitsToNat fp : ℚ) / ((10 : ℚ) ^ fp.length))
    if l3 = [] then some mant
    else if l3.head? = some 'e' ∨ l3.head? = some 'E' then
      let t := l3.tail
      let eneg := t.head? = some '-'
      let t1 := if t.head? = some '-' ∨ t.head? = some '+' then t.tail else t
      let ed := t1.takeWhile Char.isDigit
      let t2 := t1.dropWhile Char.isDigit
      if ed = [] ∨ ¬ (t2.all isSpaceChar = true) then none
      else some (mant * (10 : ℚ) ^
        (((if eneg then -1 else 1) : ℤ) * (digitsToNat ed : ℤ)))
    else if l3.all isSpaceChar then some mant else none

/- ===================== Cleaning stage ===================== -/

/-- Raw occupation row as read by `pd.read_csv(input_file, skiprows=7)`
after the positional rename: four text columns, `none` for an empty cell. -/
structure RawRow where
  occupation : Option String
  total : Option String
  men : Option String
  women : Option String
deriving DecidableEq

/-- Clean occupation record (spec: OccupationRecord). -/
structure CleanRow where
  occupation : Option String
  total : Option ℚ
  men : Option ℚ
  women : Option ℚ
  level : Nat
deriving DecidableEq

/-- Footnote cleaning of the occupation column (data_processor.py lines
36-39): first the footnote pattern, then the bare trailing number
pattern; NaN propagates through `Series.str` operations. -/
def cleanOccupation (occ : Option String) : Option String :=
  occ.map (fun s => stripTrailingNum (stripFootnote s))

/-- Numeric coercion of one cell (data_processor.py lines 42-43):
remove commas, then `pd.to_numeric(..., errors='coerce')`. -/
def parseCell (c : Option String) : Option ℚ :=
  c.bind (fun s => parseNumeral (stripCommas s))

/-- Level column (data_processor.py line 46):
`df['occupation'].str.count(r'^\s*').fillna(0)` evaluated on the
footnote-stripped label.  `str.count` is the length of the findall list,
which is 1 for every non-missing label; `fillna(0)` turns the NaN of a
missing label into 0. -/
def levelOf (occ : Option String) : Nat :=
  match occ with
  | some s => (findallStartWs s).length
  | none => 0

/-- Per-row cleaning in source order: footnote strips (lines 36-39), numeric
coercion (lines 42-43), level from the pre-trim label (line 46), trim
last (line 47). -/
def cleanRow (r : RawRow) : CleanRow :=
  { occupation := (cleanOccupation r.occupation).map pyStrip
    total := parseCell r.total
    men := parseCell r.men
    women := parseCell r.women
    level := levelOf (cleanOccupation r.occupation) }

/-- Row of `dropna(how='all', axis=0)`: true when every cell is missing. -/
def rowAllEmpty (r : RawRow) : Bool :=
  r.occupation.isNone && r.total.isNone && r.men.isNone && r.women.isNone

/-- Drop the fully-empty rows (data_processor.py line 30, axis=0 part). -/
def dropEmptyRows (rows : List RawRow) : List RawRow :=
  rows.filter (fun r => !rowAllEmpty r)

/-- Column test of `dropna(how='all', axis=1)`: the given column is missing
in every row. -/
def colAllEmpty (proj : RawRow → Option String) (rows : List RawRow) : Bool :=
  rows.all (fun r => (proj r).isNone)

/-- True when `dropna(how='all', axis=1)` drops at least one of the four
columns, in which case the positional rename
`df.columns = ['occupation','total','men','women']` (line 33) raises. -/
def someColumnDropped (rows : List RawRow) : Bool :=
  colAllEmpty (fun r => r.occupation) rows || colAllEmpty (fun r => r.total) rows ||
    colAllEmpty (fun r => r.men) rows || colAllEmpty (fun r => r.women) rows

/-- Cleaning stage of `clean_census_data` (data_processor.py lines 27-47):
drop empty columns and rows, rename positionally (an arity mismatch after
a column drop raises, modelled as an error), then clean each surviving
row. -/
def cleanTable (rows : List RawRow) : Except String (List CleanRow) :=
  if someColumnDropped rows then .error "SchemaError: column arity is not 4"
  else .ok ((dropEmptyRows rows).map cleanRow)

example :
    stripTrailingNum (stripFootnote
      "  31301 Registered nurses and registered psychiatric nurses12") =
      "  31301 Registered nurses and registered psychiatric nurses" := by decide

example :
    pyStrip "  31301 Registered nurses and registered psychiatric nurses" =
      "31301 Registered nurses and registered psychiatric nurses" := by decide

example : levelOf (some "  indented label") = 1 := by decide
example : levelOf none = 0 := by decide
example : stripFootnote "Total - all occupations i5" = "Total - all occupations" := by decide
example : stripTrailingNum "abc  12 34" = "abc  12" := by decide
example : stripFootnote "xi 12" = "xi 12" := by decide

/- ===================== Provincial distribution ===================== -/

/-- Province population record, one row of `province_population.csv`. -/
structure ProvinceRecord where
  province_code : String
  province_name : String
  population : ℚ
deriving DecidableEq

/-- numpy/pandas scalar rounding used by `.round()`: round half to even. -/
def roundHalfEven (q : ℚ) : ℤ :=
  if Int.fract q < 1/2 then ⌊q⌋
  else if Int.fract q > 1/2 then ⌊q⌋ + 1
  else if ⌊q⌋ % 2 = 0 then ⌊q⌋ else ⌊q⌋ + 1

/-- pandas `.round(2)`: round half to even at two decimal places. -/
def round2 (q : ℚ) : ℚ :=
  (roundHalfEven (q * 100) : ℚ) / 100

/-- One cell of `(province_df[col] * pop_ratio * np.random.uniform(0.8, 1.2)).round()`
(data_processor.py lines 60-62); NaN propagates. -/
def jitterCell (ratio u : ℚ) (c : Option ℚ) : Option ℚ :=
  c.map (fun x => ((roundHalfEven (x * ratio * u) : ℤ) : ℚ))

/-- One cell of `(province_df[col] / row['population'] * 100000).round(2)`
(data_processor.py lines 68-74); NaN propagates. -/
def perCapitaCell (pop : ℚ) (c : Option ℚ) : Option ℚ :=
  c.map (fun x => round2 (x / pop * 100000))

/-- Row of the combined provincial table (spec: ProvincialOccupationRow).
The added province column is named `province` as in the source (line 64). -/
structure ProvRow where
  occupation : Option String
  total : Option ℚ
  men : Option ℚ
  women : Option ℚ
  level : Nat
  province : String
  province_name : String
  population : ℚ
  per_capita : Option ℚ
  men_per_capita : Option ℚ
  women_per_capita : Option ℚ
deriving DecidableEq

/-- Sum of the population column (data_processor.py line 57 denominator). -/
def totalPopulation (provinces : List ProvinceRecord) : ℚ :=
  (provinces.map (fun p => p.population)).sum

/-- One `province_df` of the loop body (data_processor.py lines 55-76) for
the province at loop position `i`.  `np.random.uniform(0.8, 1.2)` is called
once per column, in column order total, men, women, so the province at
loop position `i` consumes the draws `3*i`, `3*i+1`, `3*i+2`; each draw is
a single scalar multiplied into the whole column. -/
def provinceBlock (draws : Nat → ℚ) (totalPop : ℚ) (i : Nat) (p : ProvinceRecord)
    (national : List CleanRow) : List ProvRow :=
  let ratio := p.population / totalPop
  national.map (fun r =>
    let t := jitterCell ratio (draws (3 * i)) r.total
    let m := jitterCell ratio (draws (3 * i + 1)) r.men
    let w := jitterCell ratio (draws (3 * i + 2)) r.women
    { occupation := r.occupation, total := t, men := m, women := w,
      level := r.level,
      province := p.province_code, province_name := p.province_name,
      population := p.population,
      per_capita := perCapitaCell p.population t,
      men_per_capita := perCapitaCell p.population m,
      women_per_capita := perCapitaCell p.population w })

/-- Loop of data_processor.py lines 54-76 followed by the
`pd.concat(provincial_dfs, ignore_index=True)` of line 79, with `i` the
loop position of the first remaining province. -/
def combineAux (draws : Nat → ℚ) (totalPop : ℚ) (national : List CleanRow) :
    Nat → List ProvinceRecord → List ProvRow
  | _, [] => []
  | i, p :: ps =>
    provinceBlock draws totalPop i p national ++
      combineAux draws totalPop national (i + 1) ps

/-- Combined provincial table (`combined_df`): province blocks in province
input order, each block a full copy of the national table. -/
def combineProvinces (draws : Nat → ℚ) (provinces : List ProvinceRecord)
    (national : List CleanRow) : List ProvRow :=
  combineAux draws (totalPopulation provinces) national 0 provinces

/- ===================== Category extraction ===================== -/

/-- Fixed mapping of data_processor.py lines 82-86. -/
def essential_services : List (String × String) :=
  [("Nurses", "31301 Registered nurses and registered psychiatric nurses"),
   ("Police Officers", "42100 Police officers (except commissioned)"),
   ("Firefighters", "42101 Firefighters")]

/-- Fixed mapping of data_processor.py lines 94-98. -/
def engineering_occupations : List (String × String) :=
  [("Computer", "21311 Computer engineers (except software engineers and designers)"),
   ("Mechanical", "21301 Mechanical engineers"),
   ("Electrical", "21310 Electrical and electronics engineers")]

/-- `Series.isin(mapping.values())` on one occupation cell: NaN is a member
of nothing. -/
def isinValues (mapping : List (String × String)) (occ : Option String) : Bool :=
  match occ with
  | some s => mapping.any (fun kv => kv.2 == s)
  | none => false

/-- `Series.map({v: k for k, v in mapping.items()})` on one matched label. -/
def reverseLookup (mapping : List (String × String)) (s : String) : Option String :=
  (mapping.find? (fun kv => kv.2 == s)).map (fun kv => kv.1)

/-- Row of a category subset: the provincial row plus the added
`service_type`/`engineering_type` column. -/
structure CatRow where
  row : ProvRow
  category_type : Option String
deriving DecidableEq

/-- Category extraction (data_processor.py lines 88-91 and 100-103):
filter by exact label membership, `.copy()`, and map the matched label to
its display name in a new column. -/
def extractCategory (mapping : List (String × String)) (combined : List ProvRow) :
    List CatRow :=
  (combined.filter (fun r => isinValues mapping r.occupation)).map
    (fun r => { row := r, category_type := r.occupation.bind (reverseLookup mapping) })

/-- `str.match(r'^\d\s[A-Z].*')` on one label: a digit, a whitespace
character, then an ASCII uppercase letter. -/
def nocMatchStr (s : String) : Bool :=
  match s.data with
  | c1 :: c2 :: c3 :: _ => c1.isDigit && isSpaceChar c2 && c3.isUpper
  | _ => false

/-- NOC-category extraction (data_processor.py lines 106-107).  On a
missing label `str.match` leaves NaN in the mask and pandas refuses to
index with a boolean mask containing NA, so the step fails if any
occupation cell of the combined table is missing. -/
def extractNoc (combined : List ProvRow) : Except String (List ProvRow) :=
  if combined.all (fun r => r.occupation.isSome) then
    .ok (combined.filter (fun r =>
      match r.occupation with
      | some s => nocMatchStr s
      | none => false))
  else .error "ValueError: cannot mask with an NA-containing array"

/- ===================== Named tables and province data ===================== -/

/-- Row of the processed province table: the loaded province row plus the
added `province` column. -/
structure ProvinceOut where
  province_code : String
  province_name : String
  population : ℚ
  province : String
deriving DecidableEq

/-- data_processor.py lines 110-111: copy the loaded province table and add
a `province` column equal to `province_code`; the copy leaves the loaded
table untouched. -/
def processProvinceData (provinces : List ProvinceRecord) : List ProvinceOut :=
  provinces.map (fun p =>
    { province_code := p.province_code, province_name := p.province_name,
      population := p.population, province := p.province_code })

/-- Named-table collection of data_processor.py lines 114-120 (the pickled
`processed_data` dict). -/
structure NamedTables where
  full_data : List ProvRow
  essential_services : List CatRow
  engineering : List CatRow
  noc_categories : List ProvRow
  province_data : List ProvinceOut
deriving DecidableEq

/-- Assembly of the named-table collection from the combined table and the
loaded province table (data_processor.py lines 82-120). -/
def buildNamedTables (draws : Nat → ℚ) (provinces : List ProvinceRecord)
    (national : List CleanRow) : Except String NamedTables :=
  let combined := combineProvinces draws provinces national
  match extractNoc combined with
  | .error e => .error e
  | .ok noc =>
    .ok { full_data := combined,
          essential_services := extractCategory essential_services combined,
          engineering := extractCategory engineering_occupations combined,
          noc_categories := noc,
          province_data := processProvinceData provinces }

/- ===================== Dashboard callbacks (app.py) ===================== -/

/-- re.sub of `^\d+\s+` with the empty string (app.py lines 258-259):
remove a leading digit run followed by a whitespace run, when both are
present. -/
def stripNocCode (s : String) : String :=
  let d := s.data.takeWhile Char.isDigit
  let rest := s.data.dropWhile Char.isDigit
  let ws := rest.takeWhile isSpaceChar
  if d ≠ [] ∧ ws ≠ [] then ⟨rest.dropWhile isSpaceChar⟩ else s

/-- pandas column sum with default skipna: missing cells are skipped, an
all-missing column sums to 0. -/
def sumCells (l : List (Option ℚ)) : ℚ :=
  (l.filterMap id).sum

/-- Distinct group keys.  pandas `groupby` drops missing keys; it also
returns groups sorted by key, a presentation-only permutation modelled
here as first-occurrence order. -/
def dedupKeys (l : List String) : List String :=
  l.foldl (fun acc s => if acc.contains s then acc else acc ++ [s]) []

/-- One aggregated row of `groupby(...).agg({'total':'sum','men':'sum','women':'sum'})`. -/
structure AggRow where
  key : String
  total : ℚ
  men : ℚ
  women : ℚ
deriving DecidableEq

/-- `df.groupby('service_type').agg(...)` over a category subset
(app.py lines 114-118). -/
def groupAggByType (rows : List CatRow) : List AggRow :=
  (dedupKeys (rows.filterMap (fun r => r.category_type))).map (fun k =>
    let grp := rows.filter (fun r => r.category_type == some k)
    { key := k, total := sumCells (grp.map (fun r => r.row.total)),
      men := sumCells (grp.map (fun r => r.row.men)),
      women := sumCells (grp.map (fun r => r.row.women)) })

/-- `df_agg` of app.py lines 262-266: group the filtered engineering rows
by (relabelled) occupation and sum. -/
def groupAggByOccupation (rows : List CatRow) : List AggRow :=
  (dedupKeys (rows.filterMap (fun r => r.row.occupation))).map (fun k =>
    let grp := rows.filter (fun r => r.row.occupation == some k)
    { key := k, total := sumCells (grp.map (fun r => r.row.total)),
      men := sumCells (grp.map (fun r => r.row.men)),
      women := sumCells (grp.map (fun r => r.row.women)) })

/-- pandas `.round(1)`: round half to even at one decimal place
(app.py lines 121-122). -/
def round1 (q : ℚ) : ℚ :=
  (roundHalfEven (q * 10) : ℚ) / 10

/-- Chart-side statistics row of `update_essential_services`: aggregated
sums plus the percentage columns. -/
structure StatRow where
  key : String
  total : ℚ
  men : ℚ
  women : ℚ
  men_pct : ℚ
  women_pct : ℚ
deriving DecidableEq

/-- Callback `update_essential_services` (app.py lines 109-222), modelled
as explicit state passing on the shared collection: the callback starts
from an explicit `.copy()` (line 111) and every later step reads or
rebuilds only that copy, so the shared collection comes back unchanged.
The returned rows are the data behind the figure and statistics table:
the full aggregate for 'all', otherwise the aggregate filtered to the
selected service. -/
def update_essential_services (store : NamedTables) (service_type : String) :
    NamedTables × List StatRow :=
  let df := store.essential_services
  let agg := groupAggByType df
  let stats := agg.map (fun a =>
    { key := a.key, total := a.total, men := a.men, women := a.women,
      men_pct := round1 (a.men / a.total * 100),
      women_pct := round1 (a.women / a.total * 100) })
  if service_type = "all" then (store, stats)
  else (store, stats.filter (fun a => a.key == service_type))

/-- Callback `update_gender_employment` (app.py lines 230-244): boolean
indexing on the shared noc table returns a fresh dataframe; nothing is
written back. -/
def update_gender_employment (store : NamedTables) (category : String) :
    NamedTables × List ProvRow :=
  let df := store.noc_categories
  (store, df.filter (fun r => r.occupation == some category))

/-- Callback `update_engineering_graph` (app.py lines 253-317): boolean
indexing (line 255) returns a fresh dataframe, so the in-place label
rewrite of lines 258-259 (which triggers a SettingWithCopyWarning) lands
on that fresh copy and the shared table is untouched; the callback then
aggregates the rewritten copy.  The threshold only draws a chart line and
is returned with the aggregate. -/
def update_engineering_graph (store : NamedTables) (eng_type : String)
    (threshold : ℚ) : NamedTables × (List AggRow × ℚ) :=
  let df := store.engineering
  let df_filtered := df.filter (fun r => r.category_type == some eng_type)
  let df_relabel := df_filtered.map (fun r =>
    { r with row := { r.row with occupation := r.row.occupation.map stripNocCode } })
  (store, (groupAggByOccupation df_relabel, threshold))

/-- Callback `update_additional_insights` (app.py lines 325-334): reads the
noc table to draw a pie chart; no filter, no write. -/
def update_additional_insights (store : NamedTables) :
    NamedTables × List ProvRow :=
  (store, store.noc_categories)

/-- One user interaction on the dashboard. -/
inductive Interaction where
  | essential (service_type : String)
  | gender (category : String)
  | engineering (eng_type : String) (threshold : ℚ)
  | insights

/-- State transition of the shared collection under one interaction. -/
def stepInteraction (store : NamedTables) : Interaction → NamedTables
  | .essential s => (update_essential_services store s).1
  | .gender c => (update_gender_employment store c).1
  | .engineering e t => (update_engineering_graph store e t).1
  | .insights => (update_additional_insights store).1

/- ===================== Snapshot store ===================== -/

/-- Modelled from the spec: SnapshotStore.  The pickling itself
(`pd.to_pickle`/`pd.read_pickle`, data_processor.py line 124 and app.py
line 19) is library code outside the repository; the spec describes it as
serializing the named-table collection to one artifact that reloads
without the source files, failing when the artifact does not decode into
the expected named-table shape.  Cells are serialized to a neutral tagged
value. -/
inductive CellVal where
  | vstr : String → CellVal
  | vnum : ℚ → CellVal
  | vnat : Nat → CellVal
  | vmissing : CellVal
deriving DecidableEq

def encodeOptStr : Option String → CellVal
  | some s => .vstr s
  | none => .vmissing

def encodeOptNum : Option ℚ → CellVal
  | some q => .vnum q
  | none => .vmissing

def decodeOptStr : CellVal → Option (Option String)
  | .vstr s => some (some s)
  | .vmissing => some none
  | _ => none

def decodeOptNum : CellVal → Option (Option ℚ)
  | .vnum q => some (some q)
  | .vmissing => some none
  | _ => none

def decodeStr : CellVal → Option String
  | .vstr s => some s
  | _ => none

def decodeNum : CellVal → Option ℚ
  | .vnum q => some q
  | _ => none

def decodeNat : CellVal → Option Nat
  | .vnat n => some n
  | _ => none

def encodeProvRow (r : ProvRow) : List CellVal :=
  [encodeOptStr r.occupation, encodeOptNum r.total, encodeOptNum r.men,
   encodeOptNum r.women, .vnat r.level, .vstr r.province,
   .vstr r.province_name, .vnum r.population, encodeOptNum r.per_capita,
   encodeOptNum r.men_per_capita, encodeOptNum r.women_per_capita]

def decodeProvRow : List CellVal → Option ProvRow
  | [a, b, c, d, e, f, g, h, i, j, k] => do
    let occ ← decodeOptStr a
    let tot ← decodeOptNum b
    let men ← decodeOptNum c
    let wom ← decodeOptNum d
    let lev ← decodeNat e
    let prov ← decodeStr f
    let pname ← decodeStr g
    let pop ← decodeNum h
    let pc ← decodeOptNum i
    let mpc ← decodeOptNum j
    let wpc ← decodeOptNum k
    some { occupation := occ, total := tot, men := men, women := wom,
           level := lev, province := prov, province_name := pname,
           population := pop, per_capita := pc, men_per_capita := mpc,
           women_per_capita := wpc }
  | _ => none

def encodeCatRow (r : CatRow) : List CellVal :=
  encodeOptStr r.category_type :: encodeProvRow r.row

def decodeCatRow : List CellVal → Option CatRow
  | c :: rest => do
    let ct ← decodeOptStr c
    let pr ← decodeProvRow rest
    some { row := pr, category_type := ct }
  | _ => none

def encodeProvinceOut (p : ProvinceOut) : List CellVal :=
  [.vstr p.province_code, .vstr p.province_name, .vnum p.population,
   .vstr p.province]

def decodeProvinceOut : List CellVal → Option ProvinceOut
  | [a, b, c, d] => do
    let pc ← decodeStr a
    let pn ← decodeStr b
    let pop ← decodeNum c
    let pv ← decodeStr d
    some { province_code := pc, province_name := pn, population := pop,
           province := pv }
  | _ => none

/-- Decode a serialized table row by row; any undecodable row corrupts the
whole artifact. -/
def decodeTable (dec : List CellVal → Option α) :
    List (List CellVal) → Option (List α)
  | [] => some []
  | r :: rs =>
    match dec r, decodeTable dec rs with
    | some a, some as => some (a :: as)
    | _, _ => none

/-- Serialized artifact: the five named tables as flat cell rows. -/
structure Artifact where
  full_data : List (List CellVal)
  essential_services : List (List CellVal)
  engineering : List (List CellVal)
  noc_categories : List (List CellVal)
  province_data : List (List CellVal)
deriving DecidableEq

/-- Modelled from the spec: `save(named_tables, path)` serializes the full
collection into one artifact, overwriting unconditionally. -/
def saveTables (t : NamedTables) : Artifact :=
  { full_data := t.full_data.map encodeProvRow,
    essential_services := t.essential_services.map encodeCatRow,
    engineering := t.engineering.map encodeCatRow,
    noc_categories := t.noc_categories.map encodeProvRow,
    province_data := t.province_data.map encodeProvinceOut }

/-- Modelled from the spec: `load(path)` deserializes the artifact, `none`
when it cannot be decoded into the expected named-table shape. -/
def loadTables (a : Artifact) : Option NamedTables := do
  let fd ← decodeTable decodeProvRow a.full_data
  let es ← decodeTable decodeCatRow a.essential_services
  let eg ← decodeTable decodeCatRow a.engineering
  let noc ← decodeTable decodeProvRow a.noc_categories
  let pd ← decodeTable decodeProvinceOut a.province_data
  some { full_data := fd, essential_services := es, engineering := eg,
         noc_categories := noc, province_data := pd }

/- ===================== Value equality and missingness ===================== -/

/-- Value equality of two possibly-missing cells, with NaN semantics: a
missing cell compares unequal to everything, itself included. -/
def optNumValEq (a b : Option ℚ) : Bool :=
  match a, b with
  | some x, some y => decide (x = y)
  | _, _ => false

/-- Value equality of two possibly-missing labels, with NaN semantics. -/
def optStrValEq (a b : Option String) : Bool :=
  match a, b with
  | some x, some y => x == y
  | _, _ => false

def provRowValEq (r s : ProvRow) : Bool :=
  optStrValEq r.occupation s.occupation && optNumValEq r.total s.total &&
    optNumValEq r.men s.men && optNumValEq r.women s.women &&
    (r.level == s.level) && (r.province == s.province) &&
    (r.province_name == s.province_name) &&
    decide (r.population = s.population) &&
    optNumValEq r.per_capita s.per_capita &&
    optNumValEq r.men_per_capita s.men_per_capita &&
    optNumValEq r.women_per_capita s.women_per_capita

def catRowValEq (r s : CatRow) : Bool :=
  optStrValEq r.category_type s.category_type && provRowValEq r.row s.row

def provinceOutValEq (r s : ProvinceOut) : Bool :=
  (r.province_code == s.province_code) && (r.province_name == s.province_name) &&
    decide (r.population = s.population) && (r.province == s.province)

/-- Per-column value equality of two tables of equal length. -/
def tableValEq (rowEq : α → α → Bool) : List α → List α → Bool
  | [], [] => true
  | a :: as, b :: bs => rowEq a b && tableValEq rowEq as bs
  | _, _ => false

def namedTablesValEq (t u : NamedTables) : Bool :=
  tableValEq provRowValEq t.full_data u.full_data &&
    tableValEq catRowValEq t.essential_services u.essential_services &&
    tableValEq catRowValEq t.engineering u.engineering &&
    tableValEq provRowValEq t.noc_categories u.noc_categories &&
    tableValEq provinceOutValEq t.province_data u.province_data

def provRowNoMissing (r : ProvRow) : Bool :=
  r.occupation.isSome && r.total.isSome && r.men.isSome && r.women.isSome &&
    r.per_capita.isSome && r.men_per_capita.isSome && r.women_per_capita.isSome

def catRowNoMissing (r : CatRow) : Bool :=
  r.category_type.isSome && provRowNoMissing r.row

/-- A collection with no missing values anywhere. -/
def tablesNoMissing (t : NamedTables) : Bool :=
  t.full_data.all provRowNoMissing &&
    t.essential_services.all catRowNoMissing &&
    t.engineering.all catRowNoMissing &&
    t.noc_categories.all provRowNoMissing

/- ===================== Concrete rows used by several claims ===================== -/

/-- Example occupation row of the spec (two leading spaces, trailing
footnote digits), with all three count columns missing. -/
def nurseRaw : RawRow :=
  { occupation :=
      some "  31301 Registered nurses and registered psychiatric nurses12",
    total := none, men := none, women := none }

/-- C1.  The spec says the `level` produced by `clean_census_data` equals the
number of leading whitespace characters of the original untrimmed label,
also when total/men/women are missing.  The code instead evaluates
`str.count(r'^\s*')`, the number of regex matches, which is 1 for every
non-missing label: at the two-space-indented example row (counts all
missing) it produces 1 where the spec requires 2. -/
theorem level_counts_matches_not_chars :
    (∀ s : String, levelOf (some s) = 1) ∧
    (cleanRow nurseRaw).level = 1 ∧
    specLeadingWsCount
      "  31301 Registered nurses and registered psychiatric nurses12" = 2 ∧
    (cleanRow nurseRaw).level ≠
      specLeadingWsCount
        "  31301 Registered nurses and registered psychiatric nurses12" :=
  ⟨fun _ => rfl, rfl, by decide, by decide⟩

/-- C2 counterexample.  At the spec's example input the cleaning stage does
not produce the label "Registered nurses and registered psychiatric
nurses" (the numeric NOC code stays on the label) and does not produce
level 2. -/
theorem nurse_example_refuted :
    (cleanRow nurseRaw).occupation ≠
      some "Registered nurses and registered psychiatric nurses" ∧
    (cleanRow nurseRaw).level ≠ 2 :=
  ⟨by decide, by decide⟩

/-- C2 amended.  At the spec's example input the cleaning stage strips the
trailing footnote digits and trims, producing the label
"31301 Registered nurses and registered psychiatric nurses" — the NOC
code stays, and it is exactly the label the essential-services extractor
matches — with level 1 (the level column counts one regex match, not the
leading whitespace characters). -/
theorem nurse_example_amended :
    (cleanRow nurseRaw).occupation =
      some "31301 Registered nurses and registered psychiatric nurses" ∧
    (cleanRow nurseRaw).level = 1 ∧
    isinValues essential_services (cleanRow nurseRaw).occupation = true :=
  ⟨by decide, rfl, by decide⟩

/-- C9.  A row whose occupation is missing but which has a non-missing
numeric cell survives the empty-row drop, keeps its missing label through
every cleaning pass, and gets level 0 from `fillna(0)`. -/
theorem missing_label_row_kept (rows : List RawRow) (r : RawRow)
    (cs : List CleanRow) (hmem : r ∈ rows) (hocc : r.occupation = none)
    (hnum : r.total.isSome ∨ r.men.isSome ∨ r.women.isSome)
    (hok : cleanTable rows = .ok cs) :
    cleanRow r ∈ cs ∧ (cleanRow r).occupation = none ∧
      (cleanRow r).level = 0 := by
  have hne : rowAllEmpty r = false := by
    rcases hnum with h | h | h <;>
      rcases Option.isSome_iff_exists.mp h with ⟨v, hv⟩ <;>
      simp [rowAllEmpty, hv]
  rw [cleanTable] at hok
  split at hok
  · exact absurd hok (by simp)
  · have hcs : cs = (dropEmptyRows rows).map cleanRow := by
      cases hok; rfl
    subst hcs
    refine ⟨List.mem_map_of_mem _ ?_, ?_, ?_⟩
    · exact List.mem_filter.mpr ⟨hmem, by simp [hne]⟩
    · simp [cleanRow, cleanOccupation, hocc]
    · simp [cleanRow, cleanOccupation, hocc, levelOf]

/-- Raw table for the C9 witness: a fully-populated filler row (so no
column is dropped) plus a row with a missing label and one numeric cell. -/
def wFillRaw : RawRow :=
  { occupation := some "1 Business occupations", total := some "1,000",
    men := some "500", women := some "500" }

def wMissRaw : RawRow :=
  { occupation := none, total := some "7", men := none, women := none }

def wRawRows : List RawRow := [wFillRaw, wMissRaw]

def wCleanRows : List CleanRow := (dropEmptyRows wRawRows).map cleanRow

theorem missing_label_row_kept_witness :
    wMissRaw ∈ wRawRows ∧ wMissRaw.occupation = none ∧
      wMissRaw.total.isSome = true ∧ cleanTable wRawRows = .ok wCleanRows ∧
      (cleanRow wMissRaw ∈ wCleanRows ∧
        (cleanRow wMissRaw).occupation = none ∧
        (cleanRow wMissRaw).level = 0) :=
  ⟨by decide, rfl, rfl, rfl,
    missing_label_row_kept wRawRows wMissRaw wCleanRows (by decide) rfl
      (Or.inl rfl) rfl⟩

/-- C10.  The processed province table equals the loaded province table
with one added `province` column that repeats `province_code`: the
original columns and the row order are unchanged, and the builder reads
but never writes the loaded table (it maps over a copy). -/
theorem province_data_adds_code_column (provinces : List ProvinceRecord) :
    ((processProvinceData provinces).map (fun o =>
        (o.province_code, o.province_name, o.population)) =
      provinces.map (fun p => (p.province_code, p.province_name, p.population))) ∧
    (processProvinceData provinces).all
      (fun o => o.province == o.province_code) = true ∧
    (processProvinceData provinces).length = provinces.length := by
  refine ⟨?_, ?_, ?_⟩
  · simp [processProvinceData]
  · simp [processProvinceData, List.all_eq_true]
  · simp [processProvinceData]

/- ===================== Structure of the combined table ===================== -/

/-- Every row of the combined table comes from some province block. -/
theorem mem_combineAux {draws : Nat → ℚ} {tp : ℚ} {national : List CleanRow}
    {r : ProvRow} :
    ∀ {n : Nat} {ps : List ProvinceRecord},
      r ∈ combineAux draws tp national n ps →
      ∃ i p, p ∈ ps ∧ r ∈ provinceBlock draws tp i p national := by
  intro n ps
  induction ps generalizing n with
  | nil => intro h; exact absurd h (by simp [combineAux])
  | cons q qs ih =>
    intro h
    rcases List.mem_append.mp h with h | h
    · exact ⟨n, q, List.mem_cons_self q qs, h⟩
    · obtain ⟨i, p, hp, hr⟩ := ih h
      exact ⟨i, p, List.mem_cons_of_mem q hp, hr⟩

/-- Every row of a province block carries that province's fields, and its
per-capita cells are the per-capita map of its own post-jitter cells over
its own population. -/
theorem provinceBlock_row_shape {draws : Nat → ℚ} {tp : ℚ} {i : Nat}
    {p : ProvinceRecord} {national : List CleanRow} {r : ProvRow}
    (h : r ∈ provinceBlock draws tp i p national) :
    r.province = p.province_code ∧ r.population = p.population ∧
      r.per_capita = perCapitaCell r.population r.total ∧
      r.men_per_capita = perCapitaCell r.population r.men ∧
      r.women_per_capita = perCapitaCell r.population r.women := by
  simp only [provinceBlock, List.mem_map] at h
  obtain ⟨cr, _, rfl⟩ := h
  exact ⟨rfl, rfl, rfl, rfl, rfl⟩

/-- C4.  Every row of the combined provincial table satisfies the
per-capita formula exactly: when the post-jitter cell is present, the
corresponding per-capita cell is `round2(cell / population * 100000)`
computed from that row's own population. -/
theorem per_capita_formula (draws : Nat → ℚ) (provs : List ProvinceRecord)
    (national : List CleanRow) (r : ProvRow)
    (hmem : r ∈ combineProvinces draws provs national) :
    (∀ t, r.total = some t →
        r.per_capita = some (round2 (t / r.population * 100000))) ∧
    (∀ m, r.men = some m →
        r.men_per_capita = some (round2 (m / r.population * 100000))) ∧
    (∀ w, r.women = some w →
        r.women_per_capita = some (round2 (w / r.population * 100000))) := by
  obtain ⟨i, p, _, hr⟩ := mem_combineAux hmem
  obtain ⟨-, -, hpc, hmpc, hwpc⟩ := provinceBlock_row_shape hr
  refine ⟨fun t ht => ?_, fun m hm => ?_, fun w hw => ?_⟩
  · rw [hpc, ht]; rfl
  · rw [hmpc, hm]; rfl
  · rw [hwpc, hw]; rfl

/- ===================== Witness data for the distribution claims ===================== -/

def wNational : List CleanRow :=
  [{ occupation :=
       some "31301 Registered nurses and registered psychiatric nurses",
     total := some 40, men := some 30, women := some 10, level := 1 }]

def wProvince : ProvinceRecord :=
  { province_code := "AA", province_name := "Alpha", population := 1 }

def wProvs : List ProvinceRecord := [wProvince]

def wDraws : Nat → ℚ := fun _ => 1

def emptyProvRow : ProvRow :=
  { occupation := none, total := none, men := none, women := none,
    level := 0, province := "", province_name := "", population := 0,
    per_capita := none, men_per_capita := none, women_per_capita := none }

def wRow : ProvRow :=
  (combineProvinces wDraws wProvs wNational).headD emptyProvRow

theorem per_capita_formula_witness :
    wRow ∈ combineProvinces wDraws wProvs wNational ∧ wRow.total = some 40 ∧
      wRow.per_capita = some (round2 (40 / wRow.population * 100000)) := by
  have hmem : wRow ∈ combineProvinces wDraws wProvs wNational := by
    have h : combineProvinces wDraws wProvs wNational = [wRow] := rfl
    rw [h]; exact List.mem_singleton.mpr rfl
  have ht : wRow.total = some 40 := by
    have h2 : wRow.total =
        some ((roundHalfEven ((40 : ℚ) *
          (wProvince.population / totalPopulation wProvs) * wDraws 0) : ℤ) : ℚ) :=
      rfl
    have h3 : (40 : ℚ) * (wProvince.population / totalPopulation wProvs) *
        wDraws 0 = 40 := by
      norm_num [wProvince, totalPopulation, wProvs, wDraws]
    have h4 : roundHalfEven (40 : ℚ) = 40 := by
      have hf : Int.fract (40 : ℚ) = 0 := by
        rw [Int.fract]; norm_num
      rw [roundHalfEven, hf, if_pos (by norm_num : (0 : ℚ) < 1 / 2)]
      norm_num
    rw [h2, h3, h4]; norm_num
  exact ⟨hmem, ht,
    (per_capita_formula wDraws wProvs wNational wRow hmem).1 40 ht⟩

/- ===================== C3: one jitter scalar per province per column ===================== -/

theorem provinceBlock_length (draws : Nat → ℚ) (tp : ℚ) (i : Nat)
    (p : ProvinceRecord) (national : List CleanRow) :
    (provinceBlock draws tp i p national).length = national.length := by
  simp [provinceBlock]

/-- The rows of the i-th province of the loop occupy the i-th block of
`national.length` consecutive rows of the concatenated table. -/
theorem combineAux_slice {draws : Nat → ℚ} {tp : ℚ} {national : List CleanRow} :
    ∀ (ps : List ProvinceRecord) (i n : Nat) (p : ProvinceRecord),
      ps[i]? = some p →
      ((combineAux draws tp national n ps).drop (i * national.length)).take
          national.length = provinceBlock draws tp (n + i) p national := by
  intro ps
  induction ps with
  | nil => intro i n p h; simp at h
  | cons q qs ih =>
    intro i n p h
    cases i with
    | zero =>
      have hq : q = p := by simpa using h
      subst hq
      simp only [combineAux, Nat.zero_mul, List.drop_zero, Nat.add_zero]
      rw [← provinceBlock_length draws tp n q national, List.take_left]
    | succ i =>
      have h2 : qs[i]? = some p := by simpa using h
      simp only [combineAux]
      have hL : (i + 1) * national.length =
          (provinceBlock draws tp n q national).length + i * national.length := by
        rw [provinceBlock_length]; ring
      rw [hL, List.drop_append, ih i (n + 1) p h2,
        show n + (i + 1) = (n + 1) + i by omega]

/-- Formula of the claim, for comparison with the source block: every row
value of a province block is `round(national_value * (pop_p / Σpop) * u)`
with a single scalar u per column, and the per-capita columns derive from
those values. -/
def specJitterBlock (provs : List ProvinceRecord) (p : ProvinceRecord)
    (uT uM uW : ℚ) (national : List CleanRow) : List ProvRow :=
  national.map (fun r =>
    let ratio := p.population / totalPopulation provs
    let t := r.total.map (fun x => ((roundHalfEven (x * ratio * uT) : ℤ) : ℚ))
    let m := r.men.map (fun x => ((roundHalfEven (x * ratio * uM) : ℤ) : ℚ))
    let w := r.women.map (fun x => ((roundHalfEven (x * ratio * uW) : ℤ) : ℚ))
    { occupation := r.occupation, total := t, men := m, women := w,
      level := r.level, province := p.province_code,
      province_name := p.province_name, population := p.population,
      per_capita := t.map (fun x => round2 (x / p.population * 100000)),
      men_per_capita := m.map (fun x => round2 (x / p.population * 100000)),
      women_per_capita := w.map (fun x => round2 (x / p.population * 100000)) })

/-- C3.  For the province at position i of the province table, there is one
scalar per column, each a uniform draw from [0.8, 1.2], such that every
row of that province's block of the combined table is the rounded product
of the national value, the population ratio and that single scalar. -/
theorem jitter_single_scalar_per_column (draws : Nat → ℚ)
    (provs : List ProvinceRecord) (national : List CleanRow) (i : Nat)
    (p : ProvinceRecord)
    (hbT : (0.8 : ℚ) ≤ draws (3 * i) ∧ draws (3 * i) ≤ 1.2)
    (hbM : (0.8 : ℚ) ≤ draws (3 * i + 1) ∧ draws (3 * i + 1) ≤ 1.2)
    (hbW : (0.8 : ℚ) ≤ draws (3 * i + 2) ∧ draws (3 * i + 2) ≤ 1.2)
    (hp : provs[i]? = some p) :
    ∃ uT uM uW : ℚ,
      ((0.8 : ℚ) ≤ uT ∧ uT ≤ 1.2) ∧ ((0.8 : ℚ) ≤ uM ∧ uM ≤ 1.2) ∧
      ((0.8 : ℚ) ≤ uW ∧ uW ≤ 1.2) ∧
      ((combineProvinces draws provs national).drop
          (i * national.length)).take national.length =
        specJitterBlock provs p uT uM uW national := by
  refine ⟨draws (3 * i), draws (3 * i + 1), draws (3 * i + 2),
    hbT, hbM, hbW, ?_⟩
  rw [combineProvinces, combineAux_slice provs i 0 p hp]
  simp only [Nat.zero_add]
  rfl

theorem jitter_single_scalar_witness :
    ((0.8 : ℚ) ≤ wDraws 0 ∧ wDraws 0 ≤ 1.2) ∧
    ((0.8 : ℚ) ≤ wDraws 1 ∧ wDraws 1 ≤ 1.2) ∧
    ((0.8 : ℚ) ≤ wDraws 2 ∧ wDraws 2 ≤ 1.2) ∧
    wProvs[0]? = some wProvince ∧
    (∃ uT uM uW : ℚ,
      ((0.8 : ℚ) ≤ uT ∧ uT ≤ 1.2) ∧ ((0.8 : ℚ) ≤ uM ∧ uM ≤ 1.2) ∧
      ((0.8 : ℚ) ≤ uW ∧ uW ≤ 1.2) ∧
      ((combineProvinces wDraws wProvs wNational).drop
          (0 * wNational.length)).take wNational.length =
        specJitterBlock wProvs wProvince uT uM uW wNational) :=
  ⟨by norm_num [wDraws], by norm_num [wDraws], by norm_num [wDraws], rfl,
    jitter_single_scalar_per_column wDraws wProvs wNational 0 wProvince
      (by norm_num [wDraws]) (by norm_num [wDraws]) (by norm_num [wDraws]) rfl⟩

/- ===================== C7: order preservation ===================== -/

theorem provinceBlock_province {draws : Nat → ℚ} {tp : ℚ} {i : Nat}
    {q : ProvinceRecord} {national : List CleanRow} {r : ProvRow}
    (h : r ∈ provinceBlock draws tp i q national) :
    r.province = q.province_code :=
  (provinceBlock_row_shape h).1

/-- The labels of a province block are the national labels, in order. -/
theorem provinceBlock_labels (draws : Nat → ℚ) (tp : ℚ) (i : Nat)
    (q : ProvinceRecord) (national : List CleanRow) :
    (provinceBlock draws tp i q national).map (fun r => r.occupation) =
      national.map (fun r => r.occupation) := by
  simp [provinceBlock, List.map_map, Function.comp]

/-- Restricting the concatenated table to the one province that carries a
given code leaves exactly that province's block, hence the national label
sequence. -/
theorem combineAux_filter_labels {draws : Nat → ℚ} {tp : ℚ}
    {national : List CleanRow} {p : ProvinceRecord} :
    ∀ (ps : List ProvinceRecord) (n : Nat), p ∈ ps →
      ps.countP (fun q => q.province_code == p.province_code) = 1 →
      ((combineAux draws tp national n ps).filter
          (fun r => r.province == p.province_code)).map
        (fun r => r.occupation) = national.map (fun r => r.occupation) := by
  intro ps
  induction ps with
  | nil => intro n hmem; exact absurd hmem (by simp)
  | cons q qs ih =>
    intro n hmem hcount
    simp only [combineAux, List.filter_append, List.map_append]
    by_cases hq : (q.province_code == p.province_code) = true
    · have hcnt0 : qs.countP (fun x => x.province_code == p.province_code) = 0 := by
        rw [List.countP_cons] at hcount
        simp only [hq, if_true] at hcount
        omega
      have hrest :
          (combineAux draws tp national (n + 1) qs).filter
            (fun r => r.province == p.province_code) = [] := by
        rw [List.filter_eq_nil_iff]
        intro r hr
        obtain ⟨i, x, hx, hrb⟩ := mem_combineAux hr
        have hxne := List.countP_eq_zero.mp hcnt0 x hx
        rw [provinceBlock_province hrb]
        simpa using hxne
      have hblock :
          (provinceBlock draws tp n q national).filter
            (fun r => r.province == p.province_code) =
          provinceBlock draws tp n q national := by
        rw [List.filter_eq_self]
        intro r hr
        rw [provinceBlock_province hr]
        exact hq
      rw [hrest, hblock, provinceBlock_labels]
      simp
    · have hne : q.province_code ≠ p.province_code := by
        simpa using hq
      have hmem2 : p ∈ qs := by
        rcases List.mem_cons.mp hmem with rfl | h
        · exact absurd rfl hne
        · exact h
      have hcnt : qs.countP (fun x => x.province_code == p.province_code) = 1 := by
        rw [List.countP_cons] at hcount
        simp only [Bool.not_eq_true] at hq
        simp only [hq, if_false] at hcount
        exact hcount
      have hblock :
          (provinceBlock draws tp n q national).filter
            (fun r => r.province == p.province_code) = [] := by
        rw [List.filter_eq_nil_iff]
        intro r hr
        rw [provinceBlock_province hr]
        exact hq
      rw [hblock, ih (n + 1) hmem2 hcnt]
      simp

/-- The province column of the concatenated table: one run of the national
length per province, in province input order. -/
theorem combineAux_province_runs {draws : Nat → ℚ} {tp : ℚ}
    {national : List CleanRow} :
    ∀ (ps : List ProvinceRecord) (n : Nat),
      (combineAux draws tp national n ps).map (fun r => r.province) =
        ps.flatMap (fun q => List.replicate national.length q.province_code) := by
  intro ps
  induction ps with
  | nil => intro n; rfl
  | cons q qs ih =>
    intro n
    simp only [combineAux, List.map_append, List.flatMap_cons, ih (n + 1)]
    congr 1
    simp only [provinceBlock, List.map_map]
    exact List.map_const' national q.province_code

/-- C7.  For a province whose code occurs exactly once in the province
table, the combined table restricted to that code lists the national
occupations in the national order; and the combined table is the province
blocks in province input order, each of national length. -/
theorem occupation_order_preserved (draws : Nat → ℚ)
    (provs : List ProvinceRecord) (national : List CleanRow)
    (p : ProvinceRecord) (hmem : p ∈ provs)
    (hcount : provs.countP (fun q => q.province_code == p.province_code) = 1) :
    ((combineProvinces draws provs national).filter
        (fun r => r.province == p.province_code)).map
      (fun r => r.occupation) = national.map (fun r => r.occupation) ∧
    (combineProvinces draws provs national).map (fun r => r.province) =
      provs.flatMap (fun q => List.replicate national.length q.province_code) := by
  exact ⟨combineAux_filter_labels provs 0 hmem hcount,
    combineAux_province_runs provs 0⟩

theorem occupation_order_preserved_witness :
    wProvince ∈ wProvs ∧
    wProvs.countP (fun q => q.province_code == wProvince.province_code) = 1 ∧
    (((combineProvinces wDraws wProvs wNational).filter
        (fun r => r.province == wProvince.province_code)).map
      (fun r => r.occupation) = wNational.map (fun r => r.occupation) ∧
    (combineProvinces wDraws wProvs wNational).map (fun r => r.province) =
      wProvs.flatMap (fun q => List.replicate wNational.length q.province_code)) :=
  ⟨List.mem_singleton.mpr rfl, rfl,
    occupation_order_preserved wDraws wProvs wNational wProvince
      (List.mem_singleton.mpr rfl) rfl⟩

example : parseNumeral "1234" = some 1234 := by
  rw [show parseNumeral "1234" = some ((1 : ℚ) * (1234 + 0 / 1)) from rfl]
  norm_num

example : parseNumeral " -2.5 " = some (-(5/2)) := by
  rw [show parseNumeral " -2.5 " = some ((-1 : ℚ) * (2 + 5 / 10 ^ 1)) from rfl]
  norm_num

example : parseNumeral "1e2" = some 100 := by
  rw [show parseNumeral "1e2" =
    some ((1 : ℚ) * (1 + 0 / 1) * (10 : ℚ) ^ ((1 : ℤ) * 2)) from rfl]
  norm_num

example : parseNumeral "n/a" = none := by decide

example : parseNumeral "" = none := by decide

example : parseNumeral "1 2" = none := by decide

example : parseCell (some "1,234") = some 1234 := by
  rw [show parseCell (some "1,234") = some ((1 : ℚ) * (1234 + 0 / 1)) from rfl]
  norm_num

/- ===================== C5: the dashboard never mutates the tables ===================== -/

/-- C5.  Every dashboard callback hands the shared named-table collection
back unchanged (each one reads a copy: an explicit `.copy()` or the fresh
frame produced by boolean indexing), so any sequence of user interactions
leaves the collection fixed; and the category extractors build new tables
while the combined table survives untouched as `full_data`. -/
theorem dashboard_never_mutates :
    (∀ (store : NamedTables) (events : List Interaction),
        events.foldl stepInteraction store = store) ∧
    (∀ (draws : Nat → ℚ) (provs : List ProvinceRecord)
        (national : List CleanRow) (t : NamedTables),
        buildNamedTables draws provs national = .ok t →
        t.full_data = combineProvinces draws provs national) := by
  constructor
  · intro store events
    have hstep : ∀ (s : NamedTables) (e : Interaction),
        stepInteraction s e = s := by
      intro s e
      cases e with
      | essential st =>
        show (update_essential_services s st).1 = s
        rw [update_essential_services]
        split <;> rfl
      | gender c => rfl
      | engineering e t => rfl
      | insights => rfl
    induction events with
    | nil => rfl
    | cons e es ih => rw [List.foldl_cons, hstep]; exact ih
  · intro draws provs national t h
    simp only [buildNamedTables] at h
    split at h
    · exact absurd h (by simp)
    · cases h; rfl

def wTables : NamedTables :=
  (buildNamedTables wDraws wProvs wNational).toOption.getD
    { full_data := [], essential_services := [], engineering := [],
      noc_categories := [], province_data := [] }

theorem dashboard_never_mutates_witness :
    buildNamedTables wDraws wProvs wNational = .ok wTables ∧
      wTables.full_data = combineProvinces wDraws wProvs wNational ∧
      [Interaction.insights, Interaction.essential "all",
        Interaction.gender "x", Interaction.engineering "Computer" 10000
        ].foldl stepInteraction wTables = wTables :=
  ⟨rfl, dashboard_never_mutates.2 wDraws wProvs wNational wTables rfl,
    dashboard_never_mutates.1 wTables _⟩

/- ===================== C6: numeric coercion never raises ===================== -/

theorem digit_not_special {c : Char} (h : c.isDigit = true) :
    isSpaceChar c = false ∧ c ≠ '-' ∧ c ≠ '+' := by
  refine ⟨?_, ?_, ?_⟩
  · by_contra hs
    rw [Bool.not_eq_false] at hs
    have hc : c = ' ' ∨ c = '\t' ∨ c = '\n' ∨ c = '\r' ∨
        c = '\x0b' ∨ c = '\x0c' := by
      simpa [isSpaceChar, or_assoc] using hs
    rcases hc with rfl | rfl | rfl | rfl | rfl | rfl <;>
      exact absurd h (by decide)
  · rintro rfl; exact absurd h (by decide)
  · rintro rfl; exact absurd h (by decide)

theorem takeWhile_all {α} {p : α → Bool} :
    ∀ l : List α, (∀ x ∈ l, p x = true) → l.takeWhile p = l := by
  intro l h
  induction l with
  | nil => rfl
  | cons a t ih =>
    rw [List.takeWhile_cons, if_pos (h a (List.mem_cons_self a t))]
    rw [ih (fun x hx => h x (List.mem_cons_of_mem a hx))]

theorem dropWhile_all {α} {p : α → Bool} :
    ∀ l : List α, (∀ x ∈ l, p x = true) → l.dropWhile p = [] := by
  intro l h
  induction l with
  | nil => rfl
  | cons a t ih =>
    rw [List.dropWhile_cons, if_pos (h a (List.mem_cons_self a t))]
    exact ih (fun x hx => h x (List.mem_cons_of_mem a hx))

/-- The parse of a non-empty all-digit token is the value of its digits. -/
theorem parseNumeral_all_digits (c : Char) (t : List Char)
    (hall : ∀ x ∈ c :: t, x.isDigit = true) :
    parseNumeral ⟨c :: t⟩ = some ((digitsToNat (c :: t) : ℚ)) := by
  have hc := hall c (List.mem_cons_self c t)
  obtain ⟨hsp, hminus, hplus⟩ := digit_not_special hc
  have hdropSp : (c :: t).dropWhile isSpaceChar = c :: t := by
    rw [List.dropWhile_cons, if_neg]; simp [hsp]
  have htake : (c :: t).takeWhile Char.isDigit = c :: t := takeWhile_all _ hall
  have hdrop : (c :: t).dropWhile Char.isDigit = [] := dropWhile_all _ hall
  simp only [parseNumeral, String.data]
  simp [hdropSp, htake, hdrop, List.head?_cons, hminus, hplus]
  norm_num [digitsToNat]

/-- C6.  The numeric coercion of the count columns is total: each cleaned
cell is exactly the `Option`-valued parse of the comma-stripped raw token
(missing for an unparsable token, never an exception), for every row that
reaches the coercion; and a digit token with thousands-separator commas
parses to the value of its digits. -/
theorem numeric_coercion_total :
    (∀ (rows : List RawRow) (cs : List CleanRow) (j : Nat) (r : RawRow),
        cleanTable rows = .ok cs → (dropEmptyRows rows)[j]? = some r →
        cs[j]? = some (cleanRow r) ∧
        (cleanRow r).total =
          r.total.bind (fun s => parseNumeral (stripCommas s)) ∧
        (cleanRow r).men =
          r.men.bind (fun s => parseNumeral (stripCommas s)) ∧
        (cleanRow r).women =
          r.women.bind (fun s => parseNumeral (stripCommas s))) ∧
    (∀ l : List Char, (∀ c ∈ l, c.isDigit = true ∨ c = ',') →
        (l.filter (fun c => c ≠ ',')).any Char.isDigit = true →
        parseCell (some ⟨l⟩) =
          some ((digitsToNat (l.filter (fun c => c ≠ ',')) : ℚ))) := by
  constructor
  · intro rows cs j r hok hj
    rw [cleanTable] at hok
    split at hok
    · exact absurd hok (by simp)
    · cases hok
      refine ⟨?_, rfl, rfl, rfl⟩
      rw [List.getElem?_map, hj]
      rfl
  · intro l hmix hany
    have hfilter : ∀ c ∈ l.filter (fun c => decide (c ≠ ',')),
        c.isDigit = true := by
      intro c hc
      obtain ⟨hcl, hne⟩ := List.mem_filter.mp hc
      rcases hmix c hcl with h | h
      · exact h
      · exact absurd h (by simpa using hne)
    obtain ⟨c0, hc0, -⟩ := List.any_eq_true.mp hany
    have hnil : l.filter (fun c => decide (c ≠ ',')) ≠ [] := by
      intro h
      rw [h] at hc0
      exact absurd hc0 (List.not_mem_nil c0)
    obtain ⟨c, t, heq⟩ := List.exists_cons_of_ne_nil hnil
    show parseNumeral (stripCommas ⟨l⟩) = _
    rw [show stripCommas ⟨l⟩ = ⟨l.filter (fun c => decide (c ≠ ','))⟩ from rfl]
    rw [heq] at hfilter ⊢
    exact parseNumeral_all_digits c t hfilter

theorem numeric_coercion_total_witness :
    cleanTable wRawRows = .ok wCleanRows ∧
    (dropEmptyRows wRawRows)[0]? = some wFillRaw ∧
    (wCleanRows[0]? = some (cleanRow wFillRaw) ∧
      (cleanRow wFillRaw).total =
        wFillRaw.total.bind (fun s => parseNumeral (stripCommas s)) ∧
      (cleanRow wFillRaw).men =
        wFillRaw.men.bind (fun s => parseNumeral (stripCommas s)) ∧
      (cleanRow wFillRaw).women =
        wFillRaw.women.bind (fun s => parseNumeral (stripCommas s))) ∧
    (∀ c ∈ "1,234".data, c.isDigit = true ∨ c = ',') ∧
    parseCell (some "1,234") =
      some ((digitsToNat ("1,234".data.filter (fun c => c ≠ ',')) : ℚ)) :=
  ⟨rfl, rfl, numeric_coercion_total.1 wRawRows wCleanRows 0 wFillRaw rfl rfl,
    by decide, numeric_coercion_total.2 "1,234".data (by decide) (by decide)⟩

/- ===================== C8: save/load round trip ===================== -/

theorem decodeOptStr_encodeOptStr (o : Option String) :
    decodeOptStr (encodeOptStr o) = some o := by
  cases o <;> rfl

theorem decodeOptNum_encodeOptNum (q : Option ℚ) :
    decodeOptNum (encodeOptNum q) = some q := by
  cases q <;> rfl

theorem decodeProvRow_encodeProvRow (r : ProvRow) :
    decodeProvRow (encodeProvRow r) = some r := by
  simp [encodeProvRow, decodeProvRow, decodeOptStr_encodeOptStr,
    decodeOptNum_encodeOptNum, decodeStr, decodeNum, decodeNat]

theorem decodeCatRow_encodeCatRow (r : CatRow) :
    decodeCatRow (encodeCatRow r) = some r := by
  simp [encodeCatRow, decodeCatRow, decodeOptStr_encodeOptStr,
    decodeProvRow_encodeProvRow]

theorem decodeProvinceOut_encodeProvinceOut (p : ProvinceOut) :
    decodeProvinceOut (encodeProvinceOut p) = some p := by
  simp [encodeProvinceOut, decodeProvinceOut, decodeStr, decodeNum]

theorem decodeTable_encode {α} (dec : List CellVal → Option α)
    (enc : α → List CellVal) (h : ∀ a, dec (enc a) = some a) :
    ∀ l : List α, decodeTable dec (l.map enc) = some l := by
  intro l
  induction l with
  | nil => rfl
  | cons a as ih => simp [decodeTable, h, ih]

theorem loadTables_saveTables (t : NamedTables) :
    loadTables (saveTables t) = some t := by
  simp [loadTables, saveTables,
    decodeTable_encode _ _ decodeProvRow_encodeProvRow,
    decodeTable_encode _ _ decodeCatRow_encodeCatRow,
    decodeTable_encode _ _ decodeProvinceOut_encodeProvinceOut]

theorem optStrValEq_self {a : Option String} (h : a.isSome = true) :
    optStrValEq a a = true := by
  cases a with
  | none => exact absurd h (by simp)
  | some s => simp [optStrValEq]

theorem optNumValEq_self {a : Option ℚ} (h : a.isSome = true) :
    optNumValEq a a = true := by
  cases a with
  | none => exact absurd h (by simp)
  | some q => simp [optNumValEq]

theorem provRowValEq_self {r : ProvRow} (h : provRowNoMissing r = true) :
    provRowValEq r r = true := by
  simp only [provRowNoMissing, Bool.and_eq_true] at h
  obtain ⟨⟨⟨⟨⟨⟨h1, h2⟩, h3⟩, h4⟩, h5⟩, h6⟩, h7⟩ := h
  simp [provRowValEq, optStrValEq_self h1, optNumValEq_self h2,
    optNumValEq_self h3, optNumValEq_self h4, optNumValEq_self h5,
    optNumValEq_self h6, optNumValEq_self h7]

theorem catRowValEq_self {r : CatRow} (h : catRowNoMissing r = true) :
    catRowValEq r r = true := by
  simp only [catRowNoMissing, Bool.and_eq_true] at h
  simp [catRowValEq, optStrValEq_self h.1, provRowValEq_self h.2]

theorem provinceOutValEq_self (p : ProvinceOut) :
    provinceOutValEq p p = true := by
  simp [provinceOutValEq]

theorem tableValEq_self {α} (rowEq : α → α → Bool) :
    ∀ l : List α, (∀ a ∈ l, rowEq a a = true) → tableValEq rowEq l l = true := by
  intro l h
  induction l with
  | nil => rfl
  | cons a as ih =>
    simp only [tableValEq, Bool.and_eq_true]
    exact ⟨h a (List.mem_cons_self a as),
      ih (fun x hx => h x (List.mem_cons_of_mem a hx))⟩

/-- C8.  Saving a named-table collection and loading it back yields the
collection again, and a collection without missing values equals its
reload under per-column value equality (missing cells have NaN semantics
and compare unequal even to themselves, which is why the claim restricts
to collections without missing values). -/
theorem save_load_roundtrip (t : NamedTables)
    (h : tablesNoMissing t = true) :
    loadTables (saveTables t) = some t ∧ namedTablesValEq t t = true := by
  refine ⟨loadTables_saveTables t, ?_⟩
  simp only [tablesNoMissing, Bool.and_eq_true, List.all_eq_true] at h
  obtain ⟨⟨⟨hfd, hes⟩, heg⟩, hnoc⟩ := h
  simp only [namedTablesValEq, Bool.and_eq_true]
  exact ⟨⟨⟨⟨tableValEq_self _ _ (fun a ha => provRowValEq_self (hfd a ha)),
    tableValEq_self _ _ (fun a ha => catRowValEq_self (hes a ha))⟩,
    tableValEq_self _ _ (fun a ha => catRowValEq_self (heg a ha))⟩,
    tableValEq_self _ _ (fun a ha => provRowValEq_self (hnoc a ha))⟩,
    tableValEq_self _ _ (fun a _ => provinceOutValEq_self a)⟩

def wC8Row : ProvRow :=
  { occupation := some "42101 Firefighters", total := some 5, men := some 4,
    women := some 1, level := 1, province := "AA", province_name := "Alpha",
    population := 1, per_capita := some 500000, men_per_capita := some 400000,
    women_per_capita := some 100000 }

def wC8Cat : CatRow :=
  { row := wC8Row, category_type := some "Firefighters" }

def wC8Prov : ProvinceOut :=
  { province_code := "AA", province_name := "Alpha", population := 1,
    province := "AA" }

def wC8Tables : NamedTables :=
  { full_data := [wC8Row], essential_services := [wC8Cat],
    engineering := [], noc_categories := [], province_data := [wC8Prov] }

theorem save_load_roundtrip_witness :
    tablesNoMissing wC8Tables = true ∧
      (loadTables (saveTables wC8Tables) = some wC8Tables ∧
        namedTablesValEq wC8Tables wC8Tables = true) :=
  ⟨rfl, save_load_roundtrip wC8Tables rfl⟩
